import Mathlib

/-
Verification development for the mysql-harness logging subsystem
(src/mysql_harness/harness/include/mysql/harness/logging.h).

The repository ships only the header: the enum `LogLevel` with its numeric
ordering, the constant `kDefaultLogLevel`, the `Record` struct, the `Handler`
interface (with inline `set_level`/`get_level`), the `StreamHandler` and
`FileHandler` constructor signatures with their default level arguments, the
registry function declarations (`set_log_level`, `register_handler`,
`unregister_handler`) and the `MAKE_LOG_FUNC` instantiations. The bodies of
`Handler::handle`, `Handler::format`, the registry operations and the dispatch
path are not under src/; those are modelled from the specification (spec.md),
as marked on each definition.
-/

set_option autoImplicit false

namespace MysqlHarness
namespace Logging

/-- Log level values, from logging.h lines 58-91. The C++ enum is ordered
numerically from most important (lowest value) to least important (highest
value); `kNotSet` is "always higher than all other log messages". -/
inductive LogLevel where
  | kFatal
  | kError
  | kWarning
  | kInfo
  | kDebug
  | kNotSet

/-- Numeric value of each enumerator, as assigned by the C++ enum declaration
order in logging.h (kFatal = 0 through kNotSet = 5). -/
def LogLevel.toNat : LogLevel → Nat
  | .kFatal => 0
  | .kError => 1
  | .kWarning => 2
  | .kInfo => 3
  | .kDebug => 4
  | .kNotSet => 5

/-- Default log level used by the router, logging.h line 96. -/
def kDefaultLogLevel : LogLevel := LogLevel.kWarning

/-- Log level name for the default log level, logging.h line 101. -/
def kDefaultLogLevelName : String := "warning"

/-- Log record, logging.h lines 110-116: level, process id, creation time,
domain name, message. `pid_t` and `time_t` are modelled as naturals; the
message is the already-rendered text. -/
structure Record where
  level : LogLevel
  process_id : Nat
  created : Nat
  domain : String
  message : String

/-- Modelled from the spec: the level-gate comparison used by the registry
(per-domain gate) and by each handler (per-handler gate). The comparison
bodies are not under src/; per the spec glossary a record passes a gate if
its severity is at least as severe as the threshold, i.e. its numeric enum
value is at most the threshold's numeric value. -/
def gate_admits (threshold recordLevel : LogLevel) : Bool :=
  recordLevel.toNat ≤ threshold.toNat

/-- Upper-case level name used in the rendered log line (spec section 8
shows "INFO" in the canonical line). -/
def levelName : LogLevel → String
  | .kFatal => "FATAL"
  | .kError => "ERROR"
  | .kWarning => "WARNING"
  | .kInfo => "INFO"
  | .kDebug => "DEBUG"
  | .kNotSet => "NOTSET"

/-- Modelled from the spec: Handler::format is declared in logging.h line 139
but its body is not under src/. The spec fixes the reference layout
"timestamp pid LEVEL-NAME domain: message". -/
def format (r : Record) : String :=
  toString r.created ++ " " ++ toString r.process_id ++ " " ++
    levelName r.level ++ " " ++ r.domain ++ ": " ++ r.message

/-- Handler state: its own minimum level (the one mutable attribute, logging.h
line 159) and the sink, modelled as the list of lines written so far. -/
structure Handler where
  level : LogLevel
  sink : List String

/-- Accessor from logging.h line 134. -/
def Handler.get_level (h : Handler) : LogLevel := h.level

/-- Mutator from logging.h line 133. -/
def Handler.set_level (h : Handler) (l : LogLevel) : Handler :=
  ⟨l, h.sink⟩

/-- Modelled from the spec: Handler::handle is declared in logging.h line 131
but its body is not under src/. The handler applies its own level as a second
filter gate; if the record's level is less severe than the handler's level the
call has no effect, otherwise the record is formatted into a single line and
written to the sink. -/
def Handler.handle (h : Handler) (r : Record) : Handler :=
  if gate_admits h.level r.level then ⟨h.level, h.sink ++ [format r]⟩ else h

/-- Default level argument of the StreamHandler constructor, logging.h
line 174. -/
def kStreamHandlerDefaultLevel : LogLevel := LogLevel.kNotSet

/-- Default level argument of the FileHandler constructor, logging.h
line 195. -/
def kFileHandlerDefaultLevel : LogLevel := LogLevel.kNotSet

/-- Modelled from the spec: StreamHandler construction (constructor body not
under src/). The handler starts with the given level and nothing written. -/
def mkStreamHandler (l : LogLevel) : Handler := ⟨l, []⟩

/-- Modelled from the spec: FileHandler construction (constructor body not
under src/). The handler starts with the given level and nothing written. -/
def mkFileHandler (l : LogLevel) : Handler := ⟨l, []⟩

/-- A StreamHandler constructed without an explicit level argument: the
default argument from logging.h line 174 is applied. -/
def mkStreamHandlerDefault : Handler := mkStreamHandler kStreamHandlerDefaultLevel

/-- A FileHandler constructed without an explicit level argument: the default
argument from logging.h line 195 is applied. -/
def mkFileHandlerDefault : Handler := mkFileHandler kFileHandlerDefaultLevel

/-- Domain entry: effective level and the ordered list of attached handler
references (spec section 3). Handlers are shared objects; they are referred
to here by a stable identifier into the registry's handler store. -/
structure DomainEntry where
  level : LogLevel
  handlers : List Nat

/-- Registry state (spec sections 3 and 4.2): mapping from domain name to
domain entry, in registration order, plus the store of shared handler
objects indexed by identifier. -/
structure Registry where
  domains : List (String × DomainEntry)
  handlerStore : List (Nat × Handler)

/-- Lookup of a domain entry by name (first match in registration order). -/
def findEntry : List (String × DomainEntry) → String → Option DomainEntry
  | [], _ => none
  | p :: rest, name => if p.1 = name then some p.2 else findEntry rest name

/-- Resolve a domain name to its entry. -/
def Registry.findDomain (reg : Registry) (name : String) : Option DomainEntry :=
  findEntry reg.domains name

/-- Modelled from the spec: register_domain (implementation not under src/).
Creates an entry with level NotSet and an empty handler list if absent;
idempotent if already present. -/
def Registry.register_domain (reg : Registry) (name : String) : Registry :=
  match findEntry reg.domains name with
  | some _ => reg
  | none => ⟨reg.domains ++ [(name, ⟨LogLevel.kNotSet, []⟩)], reg.handlerStore⟩

/-- Set every entry's level to `l`, keeping names and handler lists. -/
def setAllLevels (ds : List (String × DomainEntry)) (l : LogLevel) :
    List (String × DomainEntry) :=
  ds.map (fun p => (p.1, ⟨l, p.2.handlers⟩))

/-- Modelled from the spec: the global set_log_level declared in logging.h
line 203 (implementation not under src/). Sets every existing domain entry's
effective level; it is a bulk mutation, not a sticky default. -/
def Registry.set_log_level (reg : Registry) (l : LogLevel) : Registry :=
  ⟨setAllLevels reg.domains l, reg.handlerStore⟩

/-- Append handler reference `i` to every entry's handler list. -/
def broadcastAdd (ds : List (String × DomainEntry)) (i : Nat) :
    List (String × DomainEntry) :=
  ds.map (fun p => (p.1, ⟨p.2.level, p.2.handlers ++ [i]⟩))

/-- Modelled from the spec: register_handler declared in logging.h line 228
(implementation not under src/). Appends the handler reference to every
currently-registered domain's handler list and shares ownership of the
handler object with the registry. -/
def Registry.register_handler (reg : Registry) (i : Nat) (h : Handler) : Registry :=
  ⟨broadcastAdd reg.domains i, reg.handlerStore ++ [(i, h)]⟩

/-- Remove handler reference `i` from every entry's handler list. -/
def removeAll (ds : List (String × DomainEntry)) (i : Nat) :
    List (String × DomainEntry) :=
  ds.map (fun p => (p.1, ⟨p.2.level, p.2.handlers.filter (fun j => j ≠ i)⟩))

/-- Modelled from the spec: unregister_handler declared in logging.h line 237
(implementation not under src/). Removes the handler reference from every
domain's handler list that currently holds it; safe when already absent. -/
def Registry.unregister_handler (reg : Registry) (i : Nat) : Registry :=
  ⟨removeAll reg.domains i, reg.handlerStore⟩

/-- Modelled from the spec: effective-level resolution. The default level
Warning is used whenever a domain has not been explicitly configured, i.e.
whenever its stored level is the NotSet sentinel. -/
def Registry.effective_level (reg : Registry) (name : String) : LogLevel :=
  match findEntry reg.domains name with
  | some e =>
    match e.level with
    | LogLevel.kNotSet => kDefaultLogLevel
    | l => l
  | none => kDefaultLogLevel

/-- Apply `Handler.handle` to the handler stored under identifier `i`. -/
def updateHandler (store : List (Nat × Handler)) (i : Nat) (r : Record) :
    List (Nat × Handler) :=
  store.map (fun p => if p.1 = i then (p.1, p.2.handle r) else p)

/-- Modelled from the spec: fan-out of one record to the domain's handlers in
registration order; each handler applies its own gate inside `handle`. -/
def fanout (store : List (Nat × Handler)) (ids : List Nat) (r : Record) :
    List (Nat × Handler) :=
  ids.foldl (fun s i => updateHandler s i r) store

/-- Modelled from the spec: the generic dispatch path behind the log entry
points (implementation not under src/). Resolve the domain; if the call's
level is less severe than the domain's effective level, return immediately
with no record constructed and no handler touched; otherwise construct the
record and fan it out to the domain's handlers in registration order. The
printf-style rendering of the message is treated as an input. -/
def Registry.log (reg : Registry) (level : LogLevel) (name : String)
    (msg : String) (pid : Nat) (created : Nat) : Registry :=
  if gate_admits (reg.effective_level name) level then
    match findEntry reg.domains name with
    | some e => ⟨reg.domains, fanout reg.handlerStore e.handlers ⟨level, pid, created, name, msg⟩⟩
    | none => reg
  else reg

/-- Levels for which logging.h instantiates MAKE_LOG_FUNC (lines 283-286):
error, warning, info, debug — and no others. -/
def convenience_levels : List LogLevel :=
  [LogLevel.kError, LogLevel.kWarning, LogLevel.kInfo, LogLevel.kDebug]

/-- Occurrence test for a level in a list, by numeric enumerator value. -/
def levelIn (l : LogLevel) (ls : List LogLevel) : Bool :=
  ls.any (fun x => x.toNat == l.toNat)

/-- Convenience entry point log_error (MAKE_LOG_FUNC(error), logging.h line
283): binds level kError and calls through to the generic path. -/
def log_error (reg : Registry) (name msg : String) (pid created : Nat) : Registry :=
  reg.log LogLevel.kError name msg pid created

/-- Convenience entry point log_warning (MAKE_LOG_FUNC(warning), logging.h
line 284): binds level kWarning and calls through to the generic path. -/
def log_warning (reg : Registry) (name msg : String) (pid created : Nat) : Registry :=
  reg.log LogLevel.kWarning name msg pid created

/-- Convenience entry point log_info (MAKE_LOG_FUNC(info), logging.h line
285): binds level kInfo and calls through to the generic path. -/
def log_info (reg : Registry) (name msg : String) (pid created : Nat) : Registry :=
  reg.log LogLevel.kInfo name msg pid created

/-- Convenience entry point log_debug (MAKE_LOG_FUNC(debug), logging.h line
286): binds level kDebug and calls through to the generic path. -/
def log_debug (reg : Registry) (name msg : String) (pid created : Nat) : Registry :=
  reg.log LogLevel.kDebug name msg pid created

/-- Filtering a list by the same predicate twice equals filtering once. -/
theorem filter_twice {α : Type} (p : α → Bool) (l : List α) :
    (l.filter p).filter p = l.filter p := by
  induction l with
  | nil => rfl
  | cons a t ih =>
    by_cases h : p a = true
    · simp [List.filter_cons, h, ih]
    · simp [List.filter_cons, h, ih]

/-- Lookup through a value-only map: mapping a key-preserving function over
the entries commutes with `findEntry`. -/
theorem findEntry_mapVal (g : DomainEntry → DomainEntry)
    (ds : List (String × DomainEntry)) (name : String) :
    findEntry (ds.map (fun p => (p.1, g p.2))) name = (findEntry ds name).map g := by
  induction ds with
  | nil => rfl
  | cons p rest ih =>
    simp only [List.map_cons, findEntry]
    by_cases h : p.1 = name
    · simp [h]
    · simp [h, ih]

/-- Appending a fresh entry at the end: when the name is absent, `findEntry`
finds exactly the appended entry. -/
theorem findEntry_append (ds : List (String × DomainEntry)) (name : String)
    (e : DomainEntry) (hnone : findEntry ds name = none) :
    findEntry (ds ++ [(name, e)]) name = some e := by
  induction ds with
  | nil => simp [findEntry]
  | cons p rest ih =>
    simp only [findEntry] at hnone
    by_cases h : p.1 = name
    · simp [h] at hnone
    · simp only [List.cons_append, findEntry, h, if_false] at hnone ⊢
      exact ih hnone

/-- Removing a handler reference twice from the domain entries is the same as
removing it once. -/
theorem removeAll_twice (ds : List (String × DomainEntry)) (i : Nat) :
    removeAll (removeAll ds i) i = removeAll ds i := by
  unfold removeAll
  rw [List.map_map]
  apply List.map_congr_left
  intro p _
  simp only [Function.comp_apply]
  rw [filter_twice]

/-- C1: The LogLevel type is a total order listed most-severe to
least-severe as Fatal < Error < Warning < Info < Debug < NotSet, and NotSet
compares as the least restrictive threshold: every record level is admitted
by a gate whose threshold is NotSet. -/
theorem loglevel_total_order_notset_admits_all (L : LogLevel) :
    LogLevel.kFatal.toNat < LogLevel.kError.toNat ∧
    LogLevel.kError.toNat < LogLevel.kWarning.toNat ∧
    LogLevel.kWarning.toNat < LogLevel.kInfo.toNat ∧
    LogLevel.kInfo.toNat < LogLevel.kDebug.toNat ∧
    LogLevel.kDebug.toNat < LogLevel.kNotSet.toNat ∧
    gate_admits LogLevel.kNotSet L = true := by
  cases L <;> exact ⟨by decide, by decide, by decide, by decide, by decide, rfl⟩

/-- C2: Handler.handle applies the handler's own level as a second filter
gate. If the record's level is less severe (numerically greater) than the
handler's configured level, the call leaves the handler and its sink
unchanged; otherwise exactly one formatted line is appended to the sink and
the handler's level is untouched. -/
theorem handle_second_gate (h : Handler) (r : Record) :
    (h.level.toNat < r.level.toNat → h.handle r = h) ∧
    (r.level.toNat ≤ h.level.toNat →
      (h.handle r).sink = h.sink ++ [format r] ∧ (h.handle r).level = h.level) := by
  constructor
  · intro hlt
    unfold Handler.handle gate_admits
    simp [Nat.not_le.mpr hlt]
  · intro hle
    unfold Handler.handle gate_admits
    simp [hle]

/-- Witness for C2 at concrete inputs: a Debug record is dropped by a
Warning-level handler with no state change, and an Error record is written
as exactly one line. -/
theorem handle_second_gate_witness :
    Handler.handle ⟨LogLevel.kWarning, []⟩ ⟨LogLevel.kDebug, 7, 9, "d", "m"⟩
      = ⟨LogLevel.kWarning, []⟩ ∧
    (Handler.handle ⟨LogLevel.kWarning, []⟩ ⟨LogLevel.kError, 7, 9, "d", "m"⟩).sink
      = [] ++ [format ⟨LogLevel.kError, 7, 9, "d", "m"⟩] :=
  ⟨(handle_second_gate ⟨LogLevel.kWarning, []⟩ ⟨LogLevel.kDebug, 7, 9, "d", "m"⟩).1
      (by decide),
   ((handle_second_gate ⟨LogLevel.kWarning, []⟩ ⟨LogLevel.kError, 7, 9, "d", "m"⟩).2
      (by decide)).1⟩

/-- C10: A StreamHandler or FileHandler constructed without an explicit
level argument has level NotSet, so its own gate admits every record (its
handle call always writes), and get_level returns NotSet until set_level is
called, after which get_level returns the new level. -/
theorem default_handler_level_notset (r : Record) (l : LogLevel) :
    mkStreamHandlerDefault.get_level = LogLevel.kNotSet ∧
    mkFileHandlerDefault.get_level = LogLevel.kNotSet ∧
    gate_admits mkStreamHandlerDefault.get_level r.level = true ∧
    (mkStreamHandlerDefault.handle r).sink = mkStreamHandlerDefault.sink ++ [format r] ∧
    (mkFileHandlerDefault.handle r).sink = mkFileHandlerDefault.sink ++ [format r] ∧
    (mkStreamHandlerDefault.set_level l).get_level = l := by
  rcases r with ⟨lev, pid, cr, dom, msg⟩
  cases lev <;> exact ⟨rfl, rfl, rfl, rfl, rfl, rfl⟩

/-- C3: When the call's level is less severe (numerically greater) than the
resolved domain's effective level, log returns the registry unchanged: no
record is constructed, no handler is invoked, every handler's sink and state
are untouched. -/
theorem log_domain_gate_short_circuit (reg : Registry) (level : LogLevel)
    (name msg : String) (pid created : Nat)
    (hlt : (reg.effective_level name).toNat < level.toNat) :
    reg.log level name msg pid created = reg := by
  unfold Registry.log
  have hg : gate_admits (reg.effective_level name) level = false := by
    unfold gate_admits
    simp [Nat.not_le.mpr hlt]
  rw [hg]
  simp

/-- Witness for C3: a Debug call against a domain at effective level Info
leaves a registry holding one NotSet handler exactly as it was. -/
theorem log_domain_gate_short_circuit_witness :
    Registry.log ⟨[("d", ⟨LogLevel.kInfo, [1]⟩)], [(1, ⟨LogLevel.kNotSet, []⟩)]⟩
        LogLevel.kDebug "d" "x=5" 7 9
      = ⟨[("d", ⟨LogLevel.kInfo, [1]⟩)], [(1, ⟨LogLevel.kNotSet, []⟩)]⟩ :=
  log_domain_gate_short_circuit
    ⟨[("d", ⟨LogLevel.kInfo, [1]⟩)], [(1, ⟨LogLevel.kNotSet, []⟩)]⟩
    LogLevel.kDebug "d" "x=5" 7 9 (by decide)

/-- C7: The default log level is Warning, and it is the effective threshold
whenever a domain has not been explicitly configured: a freshly registered
domain (stored level NotSet) resolves to effective level Warning. -/
theorem default_level_is_warning (reg : Registry) (name : String)
    (habs : reg.findDomain name = none) :
    kDefaultLogLevel = LogLevel.kWarning ∧
    (reg.register_domain name).effective_level name = LogLevel.kWarning := by
  refine ⟨rfl, ?_⟩
  simp only [Registry.findDomain] at habs
  simp only [Registry.register_domain, habs, Registry.effective_level]
  rw [findEntry_append reg.domains name ⟨LogLevel.kNotSet, []⟩ habs]
  rfl

/-- Witness for C7: registering a fresh domain in the empty registry gives
it effective level Warning. -/
theorem default_level_is_warning_witness :
    kDefaultLogLevel = LogLevel.kWarning ∧
    (Registry.register_domain ⟨[], []⟩ "d").effective_level "d"
      = LogLevel.kWarning :=
  default_level_is_warning ⟨[], []⟩ "d" rfl

/-- C8: Exactly four convenience entry points exist — log_error,
log_warning, log_info, log_debug — each binding its level and calling
through to the generic dispatch path; neither Fatal nor NotSet has a
convenience entry point. -/
theorem four_convenience_entry_points (reg : Registry) (name msg : String)
    (pid created : Nat) :
    convenience_levels
      = [LogLevel.kError, LogLevel.kWarning, LogLevel.kInfo, LogLevel.kDebug] ∧
    convenience_levels.length = 4 ∧
    levelIn LogLevel.kFatal convenience_levels = false ∧
    levelIn LogLevel.kNotSet convenience_levels = false ∧
    log_error reg name msg pid created = reg.log LogLevel.kError name msg pid created ∧
    log_warning reg name msg pid created = reg.log LogLevel.kWarning name msg pid created ∧
    log_info reg name msg pid created = reg.log LogLevel.kInfo name msg pid created ∧
    log_debug reg name msg pid created = reg.log LogLevel.kDebug name msg pid created :=
  ⟨rfl, rfl, rfl, rfl, rfl, rfl, rfl, rfl⟩

/-- C4: register_handler appends the handler reference to every domain
registered at the moment of the call (each entry's handler list gains the
reference at its end), and only those: a domain registered afterwards gets
an empty handler list, so it does not hold the handler. -/
theorem register_handler_broadcast (reg : Registry) (i : Nat) (h : Handler)
    (name nm2 : String) (e : DomainEntry) :
    ((name, e) ∈ reg.domains →
      (name, ⟨e.level, e.handlers ++ [i]⟩) ∈ (reg.register_handler i h).domains) ∧
    (reg.findDomain nm2 = none →
      ((reg.register_handler i h).register_domain nm2).findDomain nm2
        = some ⟨LogLevel.kNotSet, []⟩) := by
  constructor
  · intro hm
    exact List.mem_map_of_mem _ hm
  · intro hnone
    simp only [Registry.findDomain] at hnone ⊢
    have h1 : findEntry (broadcastAdd reg.domains i) nm2 = none := by
      have h2 := findEntry_mapVal (fun d => ⟨d.level, d.handlers ++ [i]⟩) reg.domains nm2
      rw [hnone] at h2
      exact h2
    simp only [Registry.register_handler, Registry.register_domain, h1]
    exact findEntry_append _ _ _ h1

/-- Witness for C4: broadcasting handler 1 over a one-domain registry
attaches it to that domain, and a domain registered after a broadcast over
the empty registry starts with an empty handler list. -/
theorem register_handler_broadcast_witness :
    ("a", (⟨LogLevel.kNotSet, [1]⟩ : DomainEntry))
        ∈ (Registry.register_handler ⟨[("a", ⟨LogLevel.kNotSet, []⟩)], []⟩ 1
            ⟨LogLevel.kNotSet, []⟩).domains ∧
    ((Registry.register_handler ⟨[], []⟩ 1
        ⟨LogLevel.kNotSet, []⟩).register_domain "b").findDomain "b"
      = some ⟨LogLevel.kNotSet, []⟩ :=
  ⟨(register_handler_broadcast ⟨[("a", ⟨LogLevel.kNotSet, []⟩)], []⟩ 1
      ⟨LogLevel.kNotSet, []⟩ "a" "b" ⟨LogLevel.kNotSet, []⟩).1 (List.Mem.head _),
   (register_handler_broadcast ⟨[], []⟩ 1
      ⟨LogLevel.kNotSet, []⟩ "a" "b" ⟨LogLevel.kNotSet, []⟩).2 rfl⟩

/-- C5: the global set_log_level sets every existing domain entry's level to
the given level (names and handler lists intact), and leaves no sticky
default: a domain registered after the call starts at NotSet, not at the
broadcast level. -/
theorem set_log_level_global_bulk (reg : Registry) (l : LogLevel)
    (name nm2 : String) (e : DomainEntry) :
    ((name, e) ∈ reg.domains →
      (name, ⟨l, e.handlers⟩) ∈ (reg.set_log_level l).domains) ∧
    (reg.findDomain nm2 = none →
      ((reg.set_log_level l).register_domain nm2).findDomain nm2
        = some ⟨LogLevel.kNotSet, []⟩) := by
  constructor
  · intro hm
    exact List.mem_map_of_mem _ hm
  · intro hnone
    simp only [Registry.findDomain] at hnone ⊢
    have h1 : findEntry (setAllLevels reg.domains l) nm2 = none := by
      have h2 := findEntry_mapVal (fun d => ⟨l, d.handlers⟩) reg.domains nm2
      rw [hnone] at h2
      exact h2
    simp only [Registry.set_log_level, Registry.register_domain, h1]
    exact findEntry_append _ _ _ h1

/-- Witness for C5: a global set to Debug rewrites the existing entry's
level, and a domain registered after a global set on the empty registry
starts at NotSet. -/
theorem set_log_level_global_bulk_witness :
    ("a", (⟨LogLevel.kDebug, [3]⟩ : DomainEntry))
        ∈ (Registry.set_log_level ⟨[("a", ⟨LogLevel.kNotSet, [3]⟩)], []⟩
            LogLevel.kDebug).domains ∧
    ((Registry.set_log_level ⟨[], []⟩ LogLevel.kDebug).register_domain
        "b").findDomain "b"
      = some ⟨LogLevel.kNotSet, []⟩ :=
  ⟨(set_log_level_global_bulk ⟨[("a", ⟨LogLevel.kNotSet, [3]⟩)], []⟩
      LogLevel.kDebug "a" "b" ⟨LogLevel.kNotSet, [3]⟩).1 (List.Mem.head _),
   (set_log_level_global_bulk ⟨[], []⟩
      LogLevel.kDebug "a" "b" ⟨LogLevel.kNotSet, [3]⟩).2 rfl⟩

/-- C6: unregister_handler removes the handler reference from every domain's
handler list (no entry of the resulting registry holds it), and it is
idempotent: a second removal in a row leaves the registry exactly as the
single removal did, with no error. -/
theorem unregister_handler_removes_everywhere (reg : Registry) (i : Nat)
    (name : String) (e : DomainEntry) :
    ((name, e) ∈ (reg.unregister_handler i).domains → i ∉ e.handlers) ∧
    (reg.unregister_handler i).unregister_handler i = reg.unregister_handler i := by
  constructor
  · intro hm
    simp only [Registry.unregister_handler, removeAll] at hm
    obtain ⟨p, hp, heq⟩ := List.mem_map.mp hm
    cases heq
    simp [List.mem_filter]
  · show (⟨removeAll (removeAll reg.domains i) i, reg.handlerStore⟩ : Registry)
        = ⟨removeAll reg.domains i, reg.handlerStore⟩
    rw [removeAll_twice]

/-- Witness for C6: removing handler 1 from a registry whose only domain
held handlers 1 and 2 leaves an entry without 1, and removing again changes
nothing. -/
theorem unregister_handler_removes_everywhere_witness :
    (1 : Nat) ∉ DomainEntry.handlers ⟨LogLevel.kInfo, [2]⟩ ∧
    (Registry.unregister_handler ⟨[("d", ⟨LogLevel.kInfo, [1, 2]⟩)], []⟩
        1).unregister_handler 1
      = Registry.unregister_handler ⟨[("d", ⟨LogLevel.kInfo, [1, 2]⟩)], []⟩ 1 :=
  ⟨(unregister_handler_removes_everywhere ⟨[("d", ⟨LogLevel.kInfo, [1, 2]⟩)], []⟩
      1 "d" ⟨LogLevel.kInfo, [2]⟩).1 (List.Mem.head _),
   (unregister_handler_removes_everywhere ⟨[("d", ⟨LogLevel.kInfo, [1, 2]⟩)], []⟩
      1 "d" ⟨LogLevel.kInfo, [2]⟩).2⟩

end Logging
end MysqlHarness
